import Mathlib

/-!
Verification of the archery mini-game presentation engine.

The engine is a single-threaded per-frame update loop.  Each numbered
section below shallowly embeds one block of the render loop or one of the
pointer-event handlers of the canonical `GameCanvas` component: JS numbers
are modelled as `ℚ` (exact arithmetic) except where the source evaluates
`Math.sqrt` / `Math.cos`, which are modelled over `ℝ` with `Real.sqrt` /
`Real.cos`.  Randomness (`Math.random()`) is modelled by explicit
parameters.  Network-originating events are modelled as functions of their
payloads; per-frame mutations become step functions on explicit state
records, iterated to describe a run of the loop.
-/

namespace Archr

/-- 2D point / vector in screen-space pixels (`{x, y}` in the source). -/
structure Vec2 where
  x : ℚ
  y : ℚ
deriving DecidableEq, Repr

/-- A dust particle spawned at impact (`Particle` in the source). -/
structure Particle where
  x : ℚ
  y : ℚ
  vx : ℚ
  vy : ℚ
  life : ℚ
  maxLife : ℚ
  r : ℚ
deriving DecidableEq, Repr

/-- One sample of the motion trail (`TrailPoint` in the source). -/
structure TrailPoint where
  x : ℚ
  y : ℚ
  angle : ℚ
  alpha : ℚ
deriving DecidableEq, Repr

/-- The `arrowFlight` ref: one projectile flight. -/
structure Flight where
  active : Bool
  elapsed : ℚ
  duration : ℚ
  hitPoint : Vec2
  startX : ℚ
  startY : ℚ
  endX : ℚ
  endY : ℚ
  windX : ℚ
  windY : ℚ
  arcHeight : ℚ
  trail : List TrailPoint
  particles : List Particle
  flashFrames : ℕ
  playerIndex : ℤ
deriving DecidableEq, Repr

/-! ## Projectile position (render step 5, the flight block)

`gravityArc = -4 * flight.arcHeight * t * (t - 1)`;
`windDriftX = flight.windX * windDriftXFactor * t * t` (same for Y);
`ax = flight.startX + (flight.endX - flight.startX) * t + windDriftX`;
`ay = flight.startY + (flight.endY - flight.startY) * t - gravityArc + windDriftY`.
Screen-space y grows downward, so subtracting the (nonnegative on `[0,1]`)
arc displaces the arrow upward. -/

/-- The gravity-arc parabola. -/
def gravityArcAt (arcHeight t : ℚ) : ℚ := -4 * arcHeight * t * (t - 1)

/-- Wind drift along one axis: wind component times tunable factor times `t²`. -/
def windDriftAt (w factor t : ℚ) : ℚ := w * factor * t * t

/-- Rendered x-coordinate of the flying arrow at normalized time `t`. -/
def arrowPosX (f : Flight) (wdxF t : ℚ) : ℚ :=
  f.startX + (f.endX - f.startX) * t + windDriftAt f.windX wdxF t

/-- Rendered y-coordinate of the flying arrow at normalized time `t`.
The gravity arc is subtracted (screen y grows downward). -/
def arrowPosY (f : Flight) (wdyF t : ℚ) : ℚ :=
  f.startY + (f.endY - f.startY) * t - gravityArcAt f.arcHeight t + windDriftAt f.windY wdyF t

/-- The y-coordinate exactly as the specification text words it: the
gravity-arc term is ADDED to the screen-space lerp.  Kept separate so it can
be compared against `arrowPosY`, which embeds the source. -/
def specClaimPosY (f : Flight) (wdyF t : ℚ) : ℚ :=
  f.startY + (f.endY - f.startY) * t + gravityArcAt f.arcHeight t + windDriftAt f.windY wdyF t

/-- A concrete flight used to separate `arrowPosY` from `specClaimPosY`:
both endpoints at the origin, unit arc height, no wind. -/
def arcCexFlight : Flight :=
  { active := true, elapsed := 0, duration := 350, hitPoint := ⟨0, 0⟩
    startX := 0, startY := 0, endX := 0, endY := 0
    windX := 0, windY := 0, arcHeight := 1
    trail := [], particles := [], flashFrames := 0, playerIndex := 0 }

/-- C1, counterexample: at `t = 1/2` with `arcHeight = 1` and no wind, the
rendered y-coordinate is `-1` (arrow displaced upward on screen) while the
claimed formula (arc term added to screen y) yields `+1`, so the claimed
equality fails. -/
theorem gravity_sign_cex :
    arrowPosY arcCexFlight 3 (1/2) = -1 ∧ specClaimPosY arcCexFlight 3 (1/2) = 1 ∧
    arrowPosY arcCexFlight 3 (1/2) ≠ specClaimPosY arcCexFlight 3 (1/2) := by
  refine ⟨?_, ?_, ?_⟩ <;>
    norm_num [arrowPosY, specClaimPosY, gravityArcAt, windDriftAt, arcCexFlight]

/-- C1, amended: the rendered position is the lerp of start and end plus the
wind-drift term `wind * driftFactor * t²`, with the vertical gravity-arc
term `gravityArc(t) = -4 * arcHeight * t * (t-1)` SUBTRACTED from the
screen-space y (an upward displacement; screen y grows downward).
Consequently `gravityArc(0) = gravityArc(1) = 0`, `gravityArc(1/2) =
arcHeight`, `pos(0) = start`, and, ignoring wind drift, `pos(1) = end`. -/
theorem flight_position_formula (f : Flight) (wdxF wdyF t : ℚ) :
    arrowPosX f wdxF t = f.startX + (f.endX - f.startX) * t + f.windX * wdxF * t * t ∧
    arrowPosY f wdyF t
      = (f.startY + (f.endY - f.startY) * t + f.windY * wdyF * t * t)
        - gravityArcAt f.arcHeight t ∧
    gravityArcAt f.arcHeight 0 = 0 ∧
    gravityArcAt f.arcHeight 1 = 0 ∧
    gravityArcAt f.arcHeight (1/2) = f.arcHeight ∧
    arrowPosX f wdxF 0 = f.startX ∧
    arrowPosY f wdyF 0 = f.startY ∧
    arrowPosX f wdxF 1 = f.endX + f.windX * wdxF ∧
    arrowPosY f wdyF 1 = f.endY + f.windY * wdyF := by
  refine ⟨?_, ?_, ?_, ?_, ?_, ?_, ?_, ?_, ?_⟩ <;>
    simp only [arrowPosX, arrowPosY, gravityArcAt, windDriftAt] <;> ring

/-! ## Pinned-arrow retention (render step 4b, impact completion)

`const next = [...pinnedArrows.current, { point, playerIndex }];`
`pinnedArrows.current = next.length > maxArrows ? next.slice(next.length - maxArrows) : next;` -/

/-- A settled arrow pinned on the target. -/
structure PinnedArrow where
  point : Vec2
  playerIndex : ℤ
deriving DecidableEq, Repr

/-- Append a freshly settled arrow, slicing off the front when over capacity. -/
def pushPinned (cap : ℕ) (l : List PinnedArrow) (a : PinnedArrow) : List PinnedArrow :=
  let next := l ++ [a]
  if cap < next.length then next.drop (next.length - cap) else next

lemma pushPinned_drop (cap : ℕ) (xs : List PinnedArrow) (a : PinnedArrow) :
    pushPinned cap (xs.drop (xs.length - cap)) a
      = (xs ++ [a]).drop ((xs ++ [a]).length - cap) := by
  unfold pushPinned
  by_cases h : xs.length < cap
  · have h0 : xs.length - cap = 0 := by omega
    have h1 : (xs ++ [a]).length - cap = 0 := by
      simp only [List.length_append, List.length_singleton]; omega
    rw [h0, h1]
    simp only [List.drop_zero, List.length_append, List.length_singleton]
    rw [if_neg (by omega)]
  · push_neg at h
    have hlen : (xs.drop (xs.length - cap)).length = cap := by
      rw [List.length_drop]; omega
    rw [if_pos (by simp only [List.length_append, List.length_singleton, hlen]; omega)]
    have hdl : ((xs.drop (xs.length - cap)) ++ [a]).length - cap = 1 := by
      simp only [List.length_append, List.length_singleton, hlen]; omega
    rw [hdl]
    rcases Nat.eq_zero_or_pos cap with hc | hc
    · subst hc
      simp only [Nat.sub_zero, List.drop_length, List.nil_append, List.length_append,
        List.length_singleton]
      rw [List.drop_one, List.drop_eq_nil_of_le (by simp)]
      rfl
    · rw [List.drop_append_of_le_length (by omega), List.drop_drop]
      have h2 : (xs ++ [a]).length - cap = (xs.length - cap) + 1 := by
        simp only [List.length_append, List.length_singleton]; omega
      rw [h2, List.drop_append_of_le_length (by omega)]

lemma foldl_pushPinned (cap : ℕ) (xs : List PinnedArrow) :
    xs.foldl (pushPinned cap) [] = xs.drop (xs.length - cap) := by
  induction xs using List.reverseRecOn with
  | nil => simp
  | append_singleton ys a ih =>
      rw [List.foldl_append, List.foldl_cons, List.foldl_nil, ih, pushPinned_drop]

/-- C5: starting from an empty collection, after the impacts listed in `xs`
(arrival order) complete, the pinned collection is exactly the suffix of the
`cap` most recent arrivals, in arrival order — so its size is
`min N cap` after `N` impacts, the size never exceeds the capacity, and the
oldest entry is the one evicted on overflow (FIFO). -/
theorem pinned_retention_fifo (cap : ℕ) (xs : List PinnedArrow) :
    xs.foldl (pushPinned cap) [] = xs.drop (xs.length - cap) ∧
    (xs.foldl (pushPinned cap) []).length = min xs.length cap ∧
    (∀ (l : List PinnedArrow) (a : PinnedArrow),
      l.length ≤ cap → (pushPinned cap l a).length ≤ cap) := by
  refine ⟨foldl_pushPinned cap xs, ?_, ?_⟩
  · rw [foldl_pushPinned, List.length_drop]; omega
  · intro l a hl
    by_cases h : cap < l.length + 1
    · simp only [pushPinned, List.length_append, List.length_singleton, if_pos h,
        List.length_drop] at *
      omega
    · simp only [pushPinned, List.length_append, List.length_singleton, if_neg h] at *
      omega

/-- Three concrete arrivals used to exercise `pinned_retention_fifo`. -/
def threeArrivals : List PinnedArrow := [⟨⟨1, 0⟩, 0⟩, ⟨⟨2, 0⟩, 0⟩, ⟨⟨3, 0⟩, 1⟩]

/-- C5, witness: `pinned_retention_fifo` applied at capacity 2 and three
concrete arrivals. -/
theorem pinned_retention_fifo_witness :
    threeArrivals.foldl (pushPinned 2) [] = threeArrivals.drop (threeArrivals.length - 2) ∧
    (threeArrivals.foldl (pushPinned 2) []).length = min threeArrivals.length 2 ∧
    (∀ (l : List PinnedArrow) (a : PinnedArrow),
      l.length ≤ 2 → (pushPinned 2 l a).length ≤ 2) :=
  pinned_retention_fifo 2 threeArrivals

/-! ## Zoom interpolation (render zoom block)

`zoomLevel.current += (desiredZoom - zoomLevel.current) * 0.06;`
is the only assignment to the zoom level anywhere in the loop. -/

/-- One tick of the zoom ease. -/
def zoomStep (level desired : ℚ) : ℚ := level + (desired - level) * (6/100)

/-- The zoom level after `n` ticks with a constant desired zoom. -/
def zoomIterFrom (desired level : ℚ) : ℕ → ℚ
  | 0 => level
  | n + 1 => zoomStep (zoomIterFrom desired level n) desired

lemma zoom_gap (level desired : ℚ) (n : ℕ) :
    desired - zoomIterFrom desired level n = (47/50) ^ n * (desired - level) := by
  induction n with
  | zero => simp [zoomIterFrom]
  | succ n ih =>
      simp only [zoomIterFrom, zoomStep, pow_succ]
      linear_combination (47/50 : ℚ) * ih

/-- C7: the zoom level is only ever mutated by the exponential ease
`level += (desired - level) * 0.06`; one tick never crosses the target from
either side (no overshoot), the gap to the target contracts by the exact
factor `1 - 0.06 = 47/50` each tick, and for any constant target and any
`ε > 0` the iterated level comes within `ε` of the target. -/
theorem zoom_ease_convergence (level desired ε : ℚ) (hε : 0 < ε) :
    (level ≤ desired → level ≤ zoomStep level desired ∧ zoomStep level desired ≤ desired) ∧
    (desired ≤ level → desired ≤ zoomStep level desired ∧ zoomStep level desired ≤ level) ∧
    desired - zoomStep level desired = (47/50) * (desired - level) ∧
    ∃ n : ℕ, |desired - zoomIterFrom desired level n| < ε := by
  refine ⟨?_, ?_, by simp only [zoomStep]; ring, ?_⟩
  · intro h
    constructor <;> (simp only [zoomStep]; nlinarith)
  · intro h
    constructor <;> (simp only [zoomStep]; nlinarith)
  · obtain ⟨n, hn⟩ :=
      exists_pow_lt_of_lt_one
        (show (0:ℚ) < ε / (|desired - level| + 1) by positivity)
        (show (47/50 : ℚ) < 1 by norm_num)
    refine ⟨n, ?_⟩
    rw [zoom_gap, abs_mul, abs_pow, show |(47/50 : ℚ)| = 47/50 by norm_num]
    have h2 : (0:ℚ) ≤ (47/50 : ℚ) ^ n := by positivity
    have h3 : (0:ℚ) ≤ |desired - level| := abs_nonneg _
    calc (47/50 : ℚ) ^ n * |desired - level|
        ≤ (47/50 : ℚ) ^ n * (|desired - level| + 1) := by nlinarith
      _ < (ε / (|desired - level| + 1)) * (|desired - level| + 1) :=
          mul_lt_mul_of_pos_right hn (by positivity)
      _ = ε := by field_simp

/-- C7, witness: `zoom_ease_convergence` at `level = 0`, `desired = 1`,
`ε = 1/2`. -/
theorem zoom_ease_convergence_witness :
    (0:ℚ) < 1/2 ∧
    (((0:ℚ) ≤ 1 → (0:ℚ) ≤ zoomStep 0 1 ∧ zoomStep 0 1 ≤ 1) ∧
     ((1:ℚ) ≤ 0 → (1:ℚ) ≤ zoomStep 0 1 ∧ zoomStep 0 1 ≤ 0) ∧
     (1:ℚ) - zoomStep 0 1 = (47/50) * ((1:ℚ) - 0) ∧
     ∃ n : ℕ, |(1:ℚ) - zoomIterFrom 1 0 n| < 1/2) :=
  ⟨by norm_num, zoom_ease_convergence 0 1 (1/2) (by norm_num)⟩

/-! ## Shot-result event handler (`handleShotResult`)

`const hitPt = data.path[0] || { x: 0, y: 0 };` then the flight ref is
overwritten field by field; the score is deferred (`pendingScore`) and the
release zoom bump is set to `1.0`.  `path[0]` on an empty array is
`undefined` (falsy), so the hit point defaults to the target center. -/

/-- One `players` entry of the room snapshot. -/
structure PlayerEntry where
  id : String
  score : ℤ
deriving DecidableEq, Repr

/-- Game mode from the room snapshot. -/
inductive GameMode where
  | solo
  | multiplayer
deriving DecidableEq, Repr

/-- The slice of the room snapshot `handleShotResult` and the termination
branch read. -/
structure RoomSnapshot where
  players : List PlayerEntry
  mode : GameMode
deriving DecidableEq, Repr

/-- `roomStateRef.current?.players.findIndex(p => p.id === data.player) ?? 0`:
`0` when there is no room snapshot, JS `findIndex`'s `-1` when the player is
not listed. -/
def resolveOwnerIndex (room : Option RoomSnapshot) (player : String) : ℤ :=
  match room with
  | none => 0
  | some r =>
      match r.players.findIdx? (fun p => p.id == player) with
      | some i => (i : ℤ)
      | none => -1

/-- The `shotResult` handler: returns the overwritten flight ref, the new
deferred `pendingScore`, and the new `releaseZoomBump`. -/
def handleShotResult (flightDuration : ℚ) (windNow : Vec2) (room : Option RoomSnapshot)
    (player : String) (path : List Vec2) (score : ℤ) : Flight × Option ℤ × ℚ :=
  let hitPt := path.headD ⟨0, 0⟩
  ({ active := true, elapsed := 0, duration := flightDuration, hitPoint := hitPt
     startX := 0, startY := 0, endX := 0, endY := 0
     windX := windNow.x, windY := windNow.y, arcHeight := 180
     trail := [], particles := [], flashFrames := 0
     playerIndex := resolveOwnerIndex room player }, some score, 1)

/-- C10: a shot-result event with an empty `path` still produces a flight
(the handler is total — nothing throws), with the hit point defaulting to the
target center `(0,0)`; every other field of the produced flight, the
deferred score, and the release bump are identical to what any non-degenerate
path would produce. -/
theorem shot_result_empty_path (dur : ℚ) (wind : Vec2) (room : Option RoomSnapshot)
    (player : String) (score : ℤ) (p : Vec2) (rest : List Vec2) :
    (handleShotResult dur wind room player [] score).1.hitPoint = ⟨0, 0⟩ ∧
    (handleShotResult dur wind room player (p :: rest) score).1.hitPoint = p ∧
    (handleShotResult dur wind room player [] score).1
      = { (handleShotResult dur wind room player (p :: rest) score).1 with hitPoint := ⟨0, 0⟩ } ∧
    (handleShotResult dur wind room player [] score).2
      = (handleShotResult dur wind room player (p :: rest) score).2 := by
  exact ⟨rfl, rfl, rfl, rfl⟩

/-! ## Aim timer and auto-fire (render step 6, step 8, `handleStart`, `handleEnd`)

Per tick while aiming (step 6):
`const totalFrames = timerSeconds * 60;`
`aimTimer.current = Math.max(0, aimTimer.current - 1 / totalFrames);`
`if (aimTimer.current <= 0 && !shouldAutoFire.current) shouldAutoFire.current = true;`
Later in the same tick (step 8, happy path — room present, not game over):
`if (shouldAutoFire.current) { shouldAutoFire.current = false; isAiming.current = false; socket?.emit(shoot, ...) }`.
`handleEnd` (pointer up while aiming): `isAiming.current = false;` then emit.
`handleStart` seeds `aimTimer = 1.0`, `shouldAutoFire = false`.
The runtime is single-threaded, so pointer events only interleave between
render ticks; a run of the aim phase is a list of tick / release events.
The reticle value a tick writes is abstracted as that tick's input (the
physics block runs at the top of the same tick, before step 6 and step 8). -/

/-- The refs the aim/auto-fire controller reads and writes, plus the list of
shoot payloads emitted so far. -/
structure AimState where
  isAiming : Bool
  aimTimer : ℚ
  shouldAutoFire : Bool
  reticle : Vec2
  emits : List Vec2
deriving DecidableEq, Repr

/-- The state `handleStart` leaves behind (aim phase entry):
timer full, auto-fire disarmed, reticle at its spawn position. -/
def aimStartState (r0 : Vec2) : AimState :=
  { isAiming := true, aimTimer := 1, shouldAutoFire := false, reticle := r0, emits := [] }

/-- One render tick: physics writes the reticle (abstracted as input `r`),
then the timer block, then the auto-fire dispatch block. `N` is
`timerSeconds * 60`, the tick count of a full timer. -/
def aimTick (N : ℚ) (r : Vec2) (s : AimState) : AimState :=
  let s1 :=
    if s.isAiming then
      let t1 := max 0 (s.aimTimer - 1 / N)
      { s with
          reticle := r
          aimTimer := t1
          shouldAutoFire := if t1 ≤ 0 ∧ s.shouldAutoFire = false then true else s.shouldAutoFire }
    else s
  if s1.shouldAutoFire then
    { s1 with shouldAutoFire := false, isAiming := false, emits := s1.emits ++ [s1.reticle] }
  else s1

/-- `handleEnd`: a manual release between ticks; only acts while aiming. -/
def aimRelease (s : AimState) : AimState :=
  if s.isAiming then
    { s with isAiming := false, emits := s.emits ++ [s.reticle] }
  else s

/-- An event observable by the aim controller during one aim phase. -/
inductive AimEvent where
  | tick (r : Vec2)
  | release
deriving DecidableEq, Repr

/-- Apply one event. -/
def aimStep (N : ℚ) (s : AimState) : AimEvent → AimState
  | .tick r => aimTick N r s
  | .release => aimRelease s

/-- Run the controller over a list of events. -/
def aimRun (N : ℚ) (s : AimState) (es : List AimEvent) : AimState :=
  es.foldl (aimStep N) s

/-- State after `k` uninterrupted ticks since aim start, the tick `j ≥ 1`
writing reticle position `rs j`. -/
def aimTicksFrom (N : ℚ) (rs : ℕ → Vec2) (r0 : Vec2) : ℕ → AimState
  | 0 => aimStartState r0
  | k + 1 => aimTick N (rs (k + 1)) (aimTicksFrom N rs r0 k)

lemma aimTick_run (N : ℚ) (r rt : Vec2) (tmr : ℚ) (em : List Vec2)
    (h : ¬ max 0 (tmr - 1 / N) ≤ 0) :
    aimTick N r ⟨true, tmr, false, rt, em⟩ = ⟨true, max 0 (tmr - 1 / N), false, r, em⟩ := by
  have h2 : ¬ tmr ≤ N⁻¹ := by simpa using h
  simp [aimTick, h2]

lemma aimTick_expire (N : ℚ) (r rt : Vec2) (tmr : ℚ) (em : List Vec2)
    (h : max 0 (tmr - 1 / N) ≤ 0) :
    aimTick N r ⟨true, tmr, false, rt, em⟩
      = ⟨false, max 0 (tmr - 1 / N), false, r, em ++ [r]⟩ := by
  have h2 : tmr ≤ N⁻¹ := by simpa using h
  simp [aimTick, h2]

lemma aimTick_idle (N : ℚ) (r rt : Vec2) (tmr : ℚ) (em : List Vec2) :
    aimTick N r ⟨false, tmr, false, rt, em⟩ = ⟨false, tmr, false, rt, em⟩ := by
  simp [aimTick]

lemma aimTicksFrom_closed (N : ℕ) (hN : 0 < N) (rs : ℕ → Vec2) (r0 : Vec2) (k : ℕ) :
    (k < N → aimTicksFrom N rs r0 k =
      ⟨true, 1 - (k : ℚ) / N, false, if k = 0 then r0 else rs k, []⟩) ∧
    (N ≤ k → aimTicksFrom N rs r0 k = ⟨false, 0, false, rs N, [rs N]⟩) := by
  have hNq : (0:ℚ) < (N:ℚ) := by exact_mod_cast hN
  induction k with
  | zero =>
      refine ⟨fun _ => ?_, fun h => absurd h (by omega)⟩
      simp [aimTicksFrom, aimStartState]
  | succ k ih =>
      have hsplit : (1:ℚ) - (k : ℚ) / N - 1 / N = 1 - ((k : ℚ) + 1) / N := by
        rw [add_div]; ring
      constructor
      · intro hk1
        have hprev := ih.1 (by omega)
        have hpos : (0:ℚ) < 1 - ((k:ℚ) + 1) / N := by
          rw [sub_pos, div_lt_one hNq]
          exact_mod_cast hk1
        have hmax : max 0 (1 - (k : ℚ) / N - 1 / N) = 1 - ((k:ℚ) + 1) / N := by
          rw [hsplit]
          exact max_eq_right hpos.le
        simp only [aimTicksFrom, hprev]
        rw [aimTick_run _ _ _ _ _ (by rw [hmax]; exact not_le.mpr hpos), hmax]
        have hc : ((k + 1 : ℕ) : ℚ) = (k : ℚ) + 1 := by push_cast; ring
        rw [hc]
        simp [Nat.succ_ne_zero]
      · intro hk1
        rcases Nat.lt_or_ge k N with hk | hk
        · have hkN : k + 1 = N := by omega
          have hprev := ih.1 hk
          have hone : ((k:ℚ) + 1) / N = 1 := by
            rw [div_eq_one_iff_eq (ne_of_gt hNq)]
            exact_mod_cast hkN
          have hmax : max 0 (1 - (k : ℚ) / N - 1 / N) = 0 := by
            rw [hsplit, hone]
            simp
          simp only [aimTicksFrom, hprev]
          rw [aimTick_expire _ _ _ _ _ (by rw [hmax]), hmax, hkN]
          simp
        · have hprev := ih.2 hk
          simp only [aimTicksFrom, hprev]
          rw [aimTick_idle]

/-- C3: from aim start (`fraction = 1`), the timer fraction after `k`
uninterrupted ticks is exactly `max 0 (1 - k/N)` where `N = timerSeconds *
tickRate`: it is non-increasing every tick, reaches exactly 0 at tick `N`,
and on that very tick the auto-fire controller dispatches exactly one shoot
request carrying the reticle position written by that tick's physics update
(`rs N`); afterwards the controller stays quiescent. -/
theorem aim_timer_expiry (N : ℕ) (hN : 0 < N) (rs : ℕ → Vec2) (r0 : Vec2) (k : ℕ) :
    (aimTicksFrom N rs r0 0).aimTimer = 1 ∧
    (aimTicksFrom N rs r0 (k + 1)).aimTimer ≤ (aimTicksFrom N rs r0 k).aimTimer ∧
    (aimTicksFrom N rs r0 k).aimTimer = max 0 (1 - (k : ℚ) / N) ∧
    (k < N → (aimTicksFrom N rs r0 k).emits = []) ∧
    (N ≤ k →
      (aimTicksFrom N rs r0 k).aimTimer = 0 ∧
      (aimTicksFrom N rs r0 k).isAiming = false ∧
      (aimTicksFrom N rs r0 k).emits = [rs N]) := by
  have hNq : (0:ℚ) < (N:ℚ) := by exact_mod_cast hN
  have hclosed : ∀ j, (aimTicksFrom N rs r0 j).aimTimer = max 0 (1 - (j : ℚ) / N) := by
    intro j
    rcases Nat.lt_or_ge j N with hj | hj
    · rw [((aimTicksFrom_closed N hN rs r0 j).1 hj)]
      have : (0:ℚ) ≤ 1 - (j:ℚ) / N := by
        rw [sub_nonneg, div_le_one hNq]
        exact_mod_cast hj.le
      simp [max_eq_right this]
    · rw [((aimTicksFrom_closed N hN rs r0 j).2 hj)]
      have : 1 - (j:ℚ) / N ≤ 0 := by
        rw [sub_nonpos, le_div_iff₀ hNq, one_mul]
        exact_mod_cast hj
      simp [max_eq_left this]
  refine ⟨?_, ?_, hclosed k, ?_, ?_⟩
  · simp [aimTicksFrom, aimStartState]
  · rw [hclosed k, hclosed (k + 1)]
    apply max_le_max le_rfl
    have hstep : ((k : ℚ)) / N ≤ (((k + 1 : ℕ)) : ℚ) / N := by
      gcongr
      exact_mod_cast Nat.le_succ k
    linarith
  · intro hk
    rw [((aimTicksFrom_closed N hN rs r0 k).1 hk)]
  · intro hk
    rw [((aimTicksFrom_closed N hN rs r0 k).2 hk)]
    exact ⟨rfl, rfl, rfl⟩

/-- C3, witness: `aim_timer_expiry` at `N = 2`, constant reticle input,
observed after `k = 3` ticks. -/
theorem aim_timer_expiry_witness :
    0 < 2 ∧
    ((aimTicksFrom 2 (fun _ => ⟨5, 7⟩) ⟨0, 0⟩ 0).aimTimer = 1 ∧
     (aimTicksFrom 2 (fun _ => ⟨5, 7⟩) ⟨0, 0⟩ (3 + 1)).aimTimer
       ≤ (aimTicksFrom 2 (fun _ => ⟨5, 7⟩) ⟨0, 0⟩ 3).aimTimer ∧
     (aimTicksFrom 2 (fun _ => ⟨5, 7⟩) ⟨0, 0⟩ 3).aimTimer = max 0 (1 - (3 : ℚ) / 2) ∧
     (3 < 2 → (aimTicksFrom 2 (fun _ => ⟨5, 7⟩) ⟨0, 0⟩ 3).emits = []) ∧
     (2 ≤ 3 →
       (aimTicksFrom 2 (fun _ => ⟨5, 7⟩) ⟨0, 0⟩ 3).aimTimer = 0 ∧
       (aimTicksFrom 2 (fun _ => ⟨5, 7⟩) ⟨0, 0⟩ 3).isAiming = false ∧
       (aimTicksFrom 2 (fun _ => ⟨5, 7⟩) ⟨0, 0⟩ 3).emits = [(fun _ => (⟨5, 7⟩ : Vec2)) 2])) :=
  ⟨by norm_num, aim_timer_expiry 2 (by norm_num) (fun _ => ⟨5, 7⟩) ⟨0, 0⟩ 3⟩

/-- The invariant maintained between events: the armed flag is always
consumed within the tick that set it, no emission has happened while still
aiming, and exactly one has happened once aiming ended. -/
def AimInv (s : AimState) : Prop :=
  s.shouldAutoFire = false ∧
  (s.isAiming = true → s.emits = []) ∧
  (s.isAiming = false → s.emits.length = 1)

lemma aimStep_inv (N : ℚ) (s : AimState) (e : AimEvent) (h : AimInv s) :
    AimInv (aimStep N s e) := by
  obtain ⟨aim, tmr, auto, rt, em⟩ := s
  obtain ⟨hauto, haim, hdone⟩ := h
  have hauto2 : auto = false := hauto
  subst hauto2
  cases e with
  | tick r =>
      cases aim with
      | false =>
          have h2 : aimStep N ⟨false, tmr, false, rt, em⟩ (.tick r)
              = ⟨false, tmr, false, rt, em⟩ := aimTick_idle N r rt tmr em
          rw [h2]
          exact ⟨rfl, haim, hdone⟩
      | true =>
          have hem : em = [] := haim rfl
          subst hem
          by_cases hmax : max 0 (tmr - 1 / N) ≤ 0
          · have h2 : aimStep N ⟨true, tmr, false, rt, []⟩ (.tick r)
                = ⟨false, max 0 (tmr - 1 / N), false, r, [] ++ [r]⟩ :=
              aimTick_expire N r rt tmr [] hmax
            rw [h2]
            exact ⟨rfl, by simp, fun _ => by simp⟩
          · have h2 : aimStep N ⟨true, tmr, false, rt, []⟩ (.tick r)
                = ⟨true, max 0 (tmr - 1 / N), false, r, []⟩ := aimTick_run N r rt tmr [] hmax
            rw [h2]
            exact ⟨rfl, fun _ => rfl, by simp⟩
  | release =>
      cases aim with
      | false =>
          have h2 : aimStep N ⟨false, tmr, false, rt, em⟩ .release
              = ⟨false, tmr, false, rt, em⟩ := by
            simp [aimStep, aimRelease]
          rw [h2]
          exact ⟨rfl, haim, hdone⟩
      | true =>
          have hem : em = [] := haim rfl
          subst hem
          have h2 : aimStep N ⟨true, tmr, false, rt, []⟩ .release
              = ⟨false, tmr, false, rt, [rt]⟩ := by
            simp [aimStep, aimRelease]
          rw [h2]
          exact ⟨rfl, by simp, fun _ => by simp⟩

lemma aimRun_inv (N : ℚ) (es : List AimEvent) (s : AimState) (h : AimInv s) :
    AimInv (aimRun N s es) := by
  induction es generalizing s with
  | nil => exact h
  | cons e es ih => exact ih (aimStep N s e) (aimStep_inv N s e h)

/-- C4: over any interleaving of render ticks and manual releases after aim
start — including a release racing the expiry tick — the controller never
emits two shoot requests: at most one emission ever happens, no emission
happens while the aim phase is still open, and exactly one has happened
whenever the aim phase has ended (by release or by auto-fire). -/
theorem single_shot_per_aim (N : ℚ) (r0 : Vec2) (es : List AimEvent) :
    (aimRun N (aimStartState r0) es).emits.length ≤ 1 ∧
    ((aimRun N (aimStartState r0) es).isAiming = true →
      (aimRun N (aimStartState r0) es).emits = []) ∧
    ((aimRun N (aimStartState r0) es).isAiming = false →
      (aimRun N (aimStartState r0) es).emits.length = 1) := by
  have hinv : AimInv (aimRun N (aimStartState r0) es) :=
    aimRun_inv N es (aimStartState r0) ⟨rfl, fun _ => rfl, by simp [aimStartState]⟩
  obtain ⟨-, haim, hdone⟩ := hinv
  refine ⟨?_, haim, hdone⟩
  cases hb : (aimRun N (aimStartState r0) es).isAiming with
  | true => simp [haim hb]
  | false => simp [hdone hb]

/-- C4, witness: a release immediately after the expiry tick (`N = 1`): the
run dispatches exactly once. -/
theorem single_shot_per_aim_witness :
    (aimRun 1 (aimStartState ⟨0, 0⟩) [.tick ⟨1, 2⟩, .release]).emits.length ≤ 1 ∧
    ((aimRun 1 (aimStartState ⟨0, 0⟩) [.tick ⟨1, 2⟩, .release]).isAiming = true →
      (aimRun 1 (aimStartState ⟨0, 0⟩) [.tick ⟨1, 2⟩, .release]).emits = []) ∧
    ((aimRun 1 (aimStartState ⟨0, 0⟩) [.tick ⟨1, 2⟩, .release]).isAiming = false →
      (aimRun 1 (aimStartState ⟨0, 0⟩) [.tick ⟨1, 2⟩, .release]).emits.length = 1) :=
  single_shot_per_aim 1 ⟨0, 0⟩ [.tick ⟨1, 2⟩, .release]

/-! ## Flight termination (render step 5, the `t >= 1` branch)

When `t >= 1`: deactivate the flight, clear its trail, spawn ten random
dust particles (their randomized velocities are taken as parameters here),
set a four-frame impact flash, create the impact animation at the flight's
`hitPoint`, set a randomized board-shake impulse with `decay = 1.0`, start
the post-shot zoom hold on the `hitPoint` with
`Math.floor(60 * 0.8)` frames in solo mode and
`Math.floor(60 * holdTime)` frames otherwise, and promote the deferred
`pendingScore` to the visible `lastScore` with a full score flash. -/

/-- The `arrowImpact` ref. -/
structure ImpactAnim where
  active : Bool
  frame : ℕ
  totalFrames : ℕ
  hitPoint : Vec2
  playerIndex : ℤ
deriving DecidableEq, Repr

/-- The `boardShake` ref. -/
structure BoardShake where
  x : ℚ
  y : ℚ
  decay : ℚ
deriving DecidableEq, Repr

/-- The `postShotZoom` ref; `timer` counts down in frames. -/
structure PostShotZoom where
  active : Bool
  timer : ℤ
  hitPoint : Vec2
deriving DecidableEq, Repr

/-- `arrowImpact` is always created with `totalFrames: 12`. -/
def impactTotalFrames : ℕ := 12

/-- Post-shot hold length in frames:
`mode === 'solo' ? Math.floor(60 * 0.8) : Math.floor(60 * holdTime)`. -/
def holdFramesFor (mode : GameMode) (holdTime : ℚ) : ℤ :=
  match mode with
  | .solo => Int.floor ((60 : ℚ) * (8/10))
  | .multiplayer => Int.floor ((60 : ℚ) * holdTime)

/-- The refs the flight-termination branch reads and writes. -/
structure FlightPhase where
  flight : Flight
  impact : ImpactAnim
  shake : BoardShake
  psz : PostShotZoom
  pendingScore : Option ℤ
  lastScore : Option ℤ
  scoreFlash : ℚ
deriving DecidableEq, Repr

/-- The termination branch itself (executed on the tick where the clamped
normalized time reaches 1).  `randShakeX`/`randShakeY` stand for the two
`Math.random()` draws of the shake impulse and `dust` for the ten randomized
impact particles. -/
def flightTermination (holdTime : ℚ) (mode : GameMode) (randShakeX randShakeY : ℚ)
    (dust : List Particle) (st : FlightPhase) : FlightPhase :=
  { flight := { st.flight with
      active := false
      trail := []
      particles := st.flight.particles ++ dust
      flashFrames := 4 }
    impact := ⟨true, 0, impactTotalFrames, st.flight.hitPoint, st.flight.playerIndex⟩
    shake := ⟨(randShakeX - 1/2) * 4, (randShakeY - 1/2) * 3, 1⟩
    psz := ⟨true, holdFramesFor mode holdTime, st.flight.hitPoint⟩
    pendingScore := if st.pendingScore.isSome then none else st.pendingScore
    lastScore := if st.pendingScore.isSome then st.pendingScore else st.lastScore
    scoreFlash := if st.pendingScore.isSome then 1 else st.scoreFlash }

/-- C6, counterexample: with the documented configuration value
`holdTime = 0.5` s, the solo hold is 48 frames while the multiplayer hold is
only 30 frames, so the solo hold is NOT shorter than the configured
multiplayer hold. -/
theorem solo_hold_cex :
    holdFramesFor GameMode.solo (1/2) = 48 ∧
    holdFramesFor GameMode.multiplayer (1/2) = 30 ∧
    ¬ holdFramesFor GameMode.solo (1/2) < holdFramesFor GameMode.multiplayer (1/2) := by
  have h1 : holdFramesFor GameMode.solo (1/2) = 48 := by
    simp only [holdFramesFor]
    norm_num
  have h2 : holdFramesFor GameMode.multiplayer (1/2) = 30 := by
    simp only [holdFramesFor]
    norm_num
  exact ⟨h1, h2, by rw [h1, h2]; omega⟩

/-- C6, amended: on the termination tick the flight is deactivated and its
trail cleared; an `ImpactAnim` of 12 frames is created anchored at the
flight's server-given `hitPoint` — not at the wind-drift-shifted rendered
position, which at `t = 1` is the endpoint displaced by the full wind drift;
the board-shake impulse is set with `decay = 1`; the deferred score becomes
visible with a full score flash; and a post-shot zoom hold on the hit point
starts, lasting a fixed 48 frames (0.8 s) in solo mode and
`⌊60 * holdTime⌋` frames in multiplayer — the solo hold being the shorter
one whenever `holdTime ≥ 49/60` s (not for every documented `holdTime`). -/
theorem flight_termination_effects (holdTime : ℚ) (mode : GameMode) (rx ry : ℚ)
    (dust : List Particle) (st : FlightPhase) (wdxF wdyF : ℚ) :
    (flightTermination holdTime mode rx ry dust st).flight.active = false ∧
    (flightTermination holdTime mode rx ry dust st).flight.trail = [] ∧
    (flightTermination holdTime mode rx ry dust st).impact
      = ⟨true, 0, 12, st.flight.hitPoint, st.flight.playerIndex⟩ ∧
    (flightTermination holdTime mode rx ry dust st).shake.decay = 1 ∧
    (flightTermination holdTime mode rx ry dust st).psz
      = ⟨true, holdFramesFor mode holdTime, st.flight.hitPoint⟩ ∧
    (∀ v : ℤ, st.pendingScore = some v →
      (flightTermination holdTime mode rx ry dust st).lastScore = some v ∧
      (flightTermination holdTime mode rx ry dust st).scoreFlash = 1 ∧
      (flightTermination holdTime mode rx ry dust st).pendingScore = none) ∧
    holdFramesFor GameMode.solo holdTime = 48 ∧
    holdFramesFor GameMode.multiplayer holdTime = Int.floor ((60 : ℚ) * holdTime) ∧
    ((49/60 : ℚ) ≤ holdTime →
      holdFramesFor GameMode.solo holdTime < holdFramesFor GameMode.multiplayer holdTime) ∧
    arrowPosX st.flight wdxF 1 = st.flight.endX + st.flight.windX * wdxF ∧
    arrowPosY st.flight wdyF 1 = st.flight.endY + st.flight.windY * wdyF := by
  refine ⟨rfl, rfl, rfl, rfl, rfl, ?_, ?_, rfl, ?_, ?_, ?_⟩
  · intro v hv
    simp [flightTermination, hv]
  · simp only [holdFramesFor]
    norm_num
  · intro h
    have h48 : holdFramesFor GameMode.solo holdTime = 48 := by
      simp only [holdFramesFor]; norm_num
    have h49 : (49 : ℤ) ≤ Int.floor ((60 : ℚ) * holdTime) := by
      rw [Int.le_floor]
      push_cast
      linarith
    simp only [holdFramesFor] at *
    omega
  · simp only [arrowPosX, windDriftAt]; ring
  · simp only [arrowPosY, gravityArcAt, windDriftAt]; ring

/-- A concrete pre-termination state used to exercise
`flight_termination_effects`. -/
def flightPhaseW : FlightPhase :=
  { flight := { arcCexFlight with hitPoint := ⟨10, -5⟩, windX := 2, windY := 1, endX := 8, endY := 9 }
    impact := ⟨false, 0, 12, ⟨0, 0⟩, 0⟩
    shake := ⟨0, 0, 0⟩
    psz := ⟨false, 0, ⟨0, 0⟩⟩
    pendingScore := some 7
    lastScore := none
    scoreFlash := 0 }

/-- C6, witness: `flight_termination_effects` at a concrete multiplayer
termination with a deferred score of 7 and `holdTime = 1` s. -/
theorem flight_termination_effects_witness :
    (flightTermination 1 GameMode.multiplayer (1/4) (3/4) [] flightPhaseW).flight.active = false ∧
    (flightTermination 1 GameMode.multiplayer (1/4) (3/4) [] flightPhaseW).flight.trail = [] ∧
    (flightTermination 1 GameMode.multiplayer (1/4) (3/4) [] flightPhaseW).impact
      = ⟨true, 0, 12, flightPhaseW.flight.hitPoint, flightPhaseW.flight.playerIndex⟩ ∧
    (flightTermination 1 GameMode.multiplayer (1/4) (3/4) [] flightPhaseW).shake.decay = 1 ∧
    (flightTermination 1 GameMode.multiplayer (1/4) (3/4) [] flightPhaseW).psz
      = ⟨true, holdFramesFor GameMode.multiplayer 1, flightPhaseW.flight.hitPoint⟩ ∧
    (∀ v : ℤ, flightPhaseW.pendingScore = some v →
      (flightTermination 1 GameMode.multiplayer (1/4) (3/4) [] flightPhaseW).lastScore = some v ∧
      (flightTermination 1 GameMode.multiplayer (1/4) (3/4) [] flightPhaseW).scoreFlash = 1 ∧
      (flightTermination 1 GameMode.multiplayer (1/4) (3/4) [] flightPhaseW).pendingScore = none) ∧
    holdFramesFor GameMode.solo 1 = 48 ∧
    holdFramesFor GameMode.multiplayer 1 = Int.floor ((60 : ℚ) * 1) ∧
    ((49/60 : ℚ) ≤ 1 →
      holdFramesFor GameMode.solo 1 < holdFramesFor GameMode.multiplayer 1) ∧
    arrowPosX flightPhaseW.flight 6 1 = flightPhaseW.flight.endX + flightPhaseW.flight.windX * 6 ∧
    arrowPosY flightPhaseW.flight 3 1 = flightPhaseW.flight.endY + flightPhaseW.flight.windY * 3 :=
  flight_termination_effects 1 GameMode.multiplayer (1/4) (3/4) [] flightPhaseW 6 3

/-! ## Shot gating (`handleStart` guard) and post-termination containment

`handleStart` line 1: `if (!isMyTurn || postShotZoom.current.active ||
arrowFlight.current.active) return;` — then a game-over check, then
`if (y < window.innerHeight * 0.6) return;` before any state is touched.
There is no explicit `arrowImpact.active` check, but the impact animation
(12 frames) always starts on the same tick as the post-shot hold
(≥ 30 frames for every documented `holdTime`), and the hold outlives it, so
the `postShotZoom.active` test also covers every tick on which the impact
animation is active. -/

/-- The state `handleStart` reads and writes (the spawn position, computed
from two `Math.random()` draws and trigonometry, is abstracted as the
parameter `spawnPos`). -/
structure StartState where
  myTurn : Bool
  pszActive : Bool
  flightActive : Bool
  gameOver : Bool
  isAiming : Bool
  hasInteracted : Bool
  aimTimer : ℚ
  shouldAutoFire : Bool
  reticle : Vec2
  lastInputPos : Option Vec2
  inputBuffer : Vec2
  momentum : Vec2
  lastScore : Option ℤ
  innerH : ℚ
deriving DecidableEq, Repr

/-- The `handleStart` pointer-down handler. -/
def handleStart (s : StartState) (x y : ℚ) (spawnPos : Vec2) : StartState :=
  if s.myTurn = false ∨ s.pszActive = true ∨ s.flightActive = true then s
  else if s.gameOver = true then s
  else if y < s.innerH * (6/10) then s
  else
    { s with
        isAiming := true
        hasInteracted := true
        aimTimer := 1
        shouldAutoFire := false
        reticle := spawnPos
        lastInputPos := some ⟨x, y⟩
        inputBuffer := ⟨0, 0⟩
        momentum := ⟨0, 0⟩
        lastScore := none }

/-- The post-shot-zoom countdown inside the zoom block:
`psz.timer--; if (psz.timer <= 0) psz.active = false;`. -/
def pszTick (p : PostShotZoom) : PostShotZoom :=
  if p.active then
    let t := p.timer - 1
    if t ≤ 0 then ⟨false, t, p.hitPoint⟩ else ⟨true, t, p.hitPoint⟩
  else p

/-- The impact-animation advance inside render step 4b:
`frame++`, deactivating (and pinning the arrow) once
`frame >= totalFrames`. -/
def impactStep (cap : ℕ) (pinned : List PinnedArrow) (i : ImpactAnim) :
    List PinnedArrow × ImpactAnim :=
  if i.active then
    let f := i.frame + 1
    if i.totalFrames ≤ f then
      (pushPinned cap pinned ⟨i.hitPoint, i.playerIndex⟩, { i with frame := f, active := false })
    else (pinned, { i with frame := f })
  else (pinned, i)

/-- `k` render ticks after a flight termination: the zoom block (which
decrements the hold) runs before the impact block each tick. -/
def afterImpactRun (cap : ℕ) (pinned : List PinnedArrow) (i : ImpactAnim) (p : PostShotZoom) :
    ℕ → List PinnedArrow × ImpactAnim × PostShotZoom
  | 0 => (pinned, i, p)
  | k + 1 =>
      let st := afterImpactRun cap pinned i p k
      let p2 := pszTick st.2.2
      let ip := impactStep cap st.1 st.2.1
      (ip.1, ip.2, p2)

lemma pszTick_closed (h : ℤ) (hit : Vec2) (k : ℕ) :
    pszTick ⟨decide ((k : ℤ) < h), h - min (k : ℤ) h, hit⟩
      = ⟨decide ((k : ℤ) + 1 < h), h - min ((k : ℤ) + 1) h, hit⟩ := by
  by_cases hk : (k : ℤ) < h
  · have hmin : min (k : ℤ) h = (k : ℤ) := min_eq_left (by omega)
    have hmin1 : min ((k : ℤ) + 1) h = (k : ℤ) + 1 := min_eq_left (by omega)
    rw [hmin, hmin1]
    by_cases ht : h - (k : ℤ) - 1 ≤ 0
    · have hd : decide ((k : ℤ) + 1 < h) = false := by simp; omega
      simp [pszTick, hk, ht, hd]
      omega
    · have hd : decide ((k : ℤ) + 1 < h) = true := by simp; omega
      simp [pszTick, hk, ht, hd]
      omega
  · have hmin : min (k : ℤ) h = h := min_eq_right (by omega)
    have hmin1 : min ((k : ℤ) + 1) h = h := min_eq_right (by omega)
    have hd : decide ((k : ℤ) + 1 < h) = false := by simp; omega
    simp [pszTick, hk, hmin, hmin1, hd]

lemma impactStep_closed (cap : ℕ) (pinned : List PinnedArrow) (hit : Vec2) (idx : ℤ) (k : ℕ) :
    impactStep cap (if k < 12 then pinned else pushPinned cap pinned ⟨hit, idx⟩)
        ⟨decide (k < 12), min k 12, 12, hit, idx⟩
      = (if k + 1 < 12 then pinned else pushPinned cap pinned ⟨hit, idx⟩,
         ⟨decide (k + 1 < 12), min (k + 1) 12, 12, hit, idx⟩) := by
  by_cases hk : k < 12
  · have hmin : min k 12 = k := min_eq_left (by omega)
    rw [if_pos hk, hmin]
    by_cases h12 : k + 1 < 12
    · have hd : decide (k < 12) = true := by simp [hk]
      have hd1 : decide (k + 1 < 12) = true := by simp [h12]
      have hmin1 : min (k + 1) 12 = k + 1 := min_eq_left (by omega)
      rw [if_pos h12, hmin1]
      simp [impactStep, hd, hd1, show ¬ (12 ≤ k + 1) by omega]
    · have hd : decide (k < 12) = true := by simp [hk]
      have hd1 : decide (k + 1 < 12) = false := by simp; omega
      have hmin1 : min (k + 1) 12 = 12 := min_eq_right (by omega)
      have hk12 : k + 1 = 12 := by omega
      rw [if_neg h12, hmin1]
      simp [impactStep, hd, hd1, show (12 ≤ k + 1) by omega, hk12]
  · have h12 : ¬ (k + 1 < 12) := by omega
    have hd : decide (k < 12) = false := by simp [hk]
    have hd1 : decide (k + 1 < 12) = false := by simp [h12]
    have hmin : min k 12 = 12 := min_eq_right (by omega)
    have hmin1 : min (k + 1) 12 = 12 := min_eq_right (by omega)
    rw [if_neg hk, if_neg h12, hmin, hmin1]
    simp [impactStep, hd, hd1]

lemma afterImpactRun_closed (cap : ℕ) (pinned : List PinnedArrow) (hit : Vec2) (idx : ℤ)
    (h : ℤ) (hh : 12 ≤ h) (k : ℕ) :
    afterImpactRun cap pinned ⟨true, 0, 12, hit, idx⟩ ⟨true, h, hit⟩ k
      = (if k < 12 then pinned else pushPinned cap pinned ⟨hit, idx⟩,
         ⟨decide (k < 12), min k 12, 12, hit, idx⟩,
         ⟨decide ((k : ℤ) < h), h - min (k : ℤ) h, hit⟩) := by
  induction k with
  | zero =>
      simp only [afterImpactRun]
      rw [if_pos (by omega)]
      have h1 : decide (0 < 12) = true := by decide
      have h2 : decide ((0 : ℤ) < h) = true := by simp; omega
      simp [h1, h2]
      omega
  | succ k ih =>
      simp only [afterImpactRun, ih]
      rw [impactStep_closed cap pinned hit idx k, pszTick_closed h hit k]
      have hc : ((k + 1 : ℕ) : ℤ) = (k : ℤ) + 1 := by push_cast; ring
      rw [hc]

/-- C8: a new aim cannot start while the post-shot hold or a flight is
active (or when it is not the local player's turn): `handleStart` returns
the state entirely unchanged.  There is no explicit impact-animation check,
but on every tick boundary after a flight termination on which the impact
animation (12 frames) is still active, the post-shot hold (`h ≥ 12` frames
— at least 30 under every documented `holdTime`) is still active as well,
so the `postShotZoom.active` guard also blocks aiming during the impact
animation.  The engine holds exactly one `Flight` ref and one `ImpactAnim`
ref, so at most one of each exists at any time by construction. -/
theorem shot_gating (s : StartState) (x y : ℚ) (spawnPos : Vec2) (cap : ℕ)
    (pinned : List PinnedArrow) (hit : Vec2) (idx : ℤ) (h : ℤ) (k : ℕ)
    (hguard : s.pszActive = true ∨ s.flightActive = true ∨ s.myTurn = false)
    (hh : 12 ≤ h) :
    handleStart s x y spawnPos = s ∧
    ((afterImpactRun cap pinned ⟨true, 0, 12, hit, idx⟩ ⟨true, h, hit⟩ k).2.1.active = true →
      (afterImpactRun cap pinned ⟨true, 0, 12, hit, idx⟩ ⟨true, h, hit⟩ k).2.2.active = true) := by
  constructor
  · unfold handleStart
    rw [if_pos (by tauto)]
  · rw [afterImpactRun_closed cap pinned hit idx h hh k]
    simp only [decide_eq_true_eq]
    intro hk
    omega

/-- C8, witness: `shot_gating` at a concrete blocked state (post-shot hold
active) and the 5th tick boundary of a 30-frame hold. -/
theorem shot_gating_witness :
    ((StartState.mk true true false false false false 0 false ⟨0, 0⟩ none ⟨0, 0⟩ ⟨0, 0⟩ none
        600).pszActive = true ∨
      (StartState.mk true true false false false false 0 false ⟨0, 0⟩ none ⟨0, 0⟩ ⟨0, 0⟩ none
        600).flightActive = true ∨
      (StartState.mk true true false false false false 0 false ⟨0, 0⟩ none ⟨0, 0⟩ ⟨0, 0⟩ none
        600).myTurn = false) ∧
    (12 : ℤ) ≤ 30 ∧
    (handleStart
        (StartState.mk true true false false false false 0 false ⟨0, 0⟩ none ⟨0, 0⟩ ⟨0, 0⟩ none
          600) 5 500 ⟨1, 1⟩
      = StartState.mk true true false false false false 0 false ⟨0, 0⟩ none ⟨0, 0⟩ ⟨0, 0⟩ none
          600 ∧
    ((afterImpactRun 3 [] ⟨true, 0, 12, ⟨10, -5⟩, 0⟩ ⟨true, 30, ⟨10, -5⟩⟩ 5).2.1.active = true →
      (afterImpactRun 3 [] ⟨true, 0, 12, ⟨10, -5⟩, 0⟩ ⟨true, 30, ⟨10, -5⟩⟩ 5).2.2.active = true)) :=
  ⟨Or.inl rfl, by norm_num,
    shot_gating
      (StartState.mk true true false false false false 0 false ⟨0, 0⟩ none ⟨0, 0⟩ ⟨0, 0⟩ none 600)
      5 500 ⟨1, 1⟩ 3 [] ⟨10, -5⟩ 0 30 5 (Or.inl rfl) (by norm_num)⟩

/-! ## Reticle momentum clamp (`GameCanvas.tsx` physics update)

The speed-envelope variant of the physics update:
`m += buf * steeringPower;` clear buffer;
`speed = sqrt(m.x*m.x + m.y*m.y);`
`if (speed > maxSpeed) scale m by maxSpeed/speed;`
`else if (speed < minSpeed && speed > 0.001) scale m by minSpeed/speed;`
then `position += m`.  Note the `speed > 0.001` dead zone: momentum whose
magnitude lands at or below `0.001` is not boosted back up. -/

/-- `Math.sqrt(x*x + y*y)`. -/
noncomputable def vecNorm (x y : ℝ) : ℝ := Real.sqrt (x * x + y * y)

lemma vecNorm_nonneg (x y : ℝ) : 0 ≤ vecNorm x y := Real.sqrt_nonneg _

lemma vecNorm_scale (x y c : ℝ) : vecNorm (x * c) (y * c) = |c| * vecNorm x y := by
  unfold vecNorm
  rw [show x * c * (x * c) + y * c * (y * c) = c ^ 2 * (x * x + y * y) by ring,
    Real.sqrt_mul (sq_nonneg c), Real.sqrt_sq_eq_abs]

/-- The speed-bounds clamp of the physics update. -/
noncomputable def clampSpeed (minS maxS mx my : ℝ) : ℝ × ℝ :=
  if maxS < vecNorm mx my then
    (mx * (maxS / vecNorm mx my), my * (maxS / vecNorm mx my))
  else if vecNorm mx my < minS ∧ 1/1000 < vecNorm mx my then
    (mx * (minS / vecNorm mx my), my * (minS / vecNorm mx my))
  else (mx, my)

/-- One physics update while aiming: blend the accumulated drag buffer into
momentum, clamp the speed, integrate position.  Returns the new momentum
and position (the buffer is drained to zero). -/
noncomputable def physicsStepGC (steeringPower minS maxS : ℝ) (m buf pos : ℝ × ℝ) :
    (ℝ × ℝ) × (ℝ × ℝ) :=
  let m1 : ℝ × ℝ := (m.1 + buf.1 * steeringPower, m.2 + buf.2 * steeringPower)
  let m2 := clampSpeed minS maxS m1.1 m1.2
  (m2, (pos.1 + m2.1, pos.2 + m2.2))

/-- C2, counterexample: while aiming with `steeringPower = 0.15`,
`minSpeed = 0.4`, `maxSpeed = 4`, momentum `(0.4, 0)` and a nonzero drag
impulse `(-8/3, 0)` this tick, the post-impulse momentum is exactly `(0,0)`
(speed `0 <= 0.001`, so neither clamp branch fires): momentum collapses
to exactly zero while aiming, and its magnitude `0` is below `minSpeed`. -/
theorem momentum_collapse_cex :
    (physicsStepGC (15/100) (4/10) 4 ((2/5 : ℝ), 0) (-8/3, 0) (0, 0)).1 = (0, 0) ∧
    vecNorm (0 : ℝ) 0 = 0 ∧ (0 : ℝ) < 4/10 := by
  have hv : vecNorm (0 : ℝ) 0 = 0 := by
    unfold vecNorm
    norm_num
  refine ⟨?_, hv, by norm_num⟩
  have ha : (2/5 : ℝ) + (-8/3) * (15/100) = 0 := by norm_num
  have hb : (0 : ℝ) + 0 * (15/100) = 0 := by norm_num
  show clampSpeed (4/10) 4 ((2/5 : ℝ) + (-8/3) * (15/100)) ((0 : ℝ) + 0 * (15/100)) = (0, 0)
  rw [ha, hb]
  unfold clampSpeed
  rw [hv]
  rw [if_neg (by norm_num), if_neg (by norm_num)]

/-- C2, amended: on any aiming tick whose post-impulse speed clears the
`0.001` dead zone, the clamped momentum magnitude lies in
`[minSpeed, maxSpeed]` (for documented configurations
`0 <= minSpeed <= maxSpeed`); momentum can still collapse to exactly zero,
but only when an impulse cancels it into the dead zone. -/
theorem momentum_speed_envelope (sp minS maxS : ℝ) (m buf pos : ℝ × ℝ)
    (h0 : 0 ≤ minS) (h1 : minS ≤ maxS)
    (hdead : 1/1000 < vecNorm (m.1 + buf.1 * sp) (m.2 + buf.2 * sp)) :
    minS ≤ vecNorm (physicsStepGC sp minS maxS m buf pos).1.1
      (physicsStepGC sp minS maxS m buf pos).1.2 ∧
    vecNorm (physicsStepGC sp minS maxS m buf pos).1.1
      (physicsStepGC sp minS maxS m buf pos).1.2 ≤ maxS := by
  have hs0 : (0 : ℝ) < vecNorm (m.1 + buf.1 * sp) (m.2 + buf.2 * sp) :=
    lt_trans (by norm_num) hdead
  have hstep : (physicsStepGC sp minS maxS m buf pos).1
      = clampSpeed minS maxS (m.1 + buf.1 * sp) (m.2 + buf.2 * sp) := rfl
  rw [hstep]
  set a := m.1 + buf.1 * sp
  set b := m.2 + buf.2 * sp
  unfold clampSpeed
  by_cases hmax : maxS < vecNorm a b
  · rw [if_pos hmax]
    have hsc : vecNorm (a * (maxS / vecNorm a b)) (b * (maxS / vecNorm a b))
        = |maxS / vecNorm a b| * vecNorm a b := vecNorm_scale a b _
    have habs : |maxS / vecNorm a b| = maxS / vecNorm a b :=
      abs_of_nonneg (div_nonneg (h0.trans h1) hs0.le)
    have hval : (maxS / vecNorm a b) * vecNorm a b = maxS :=
      div_mul_cancel₀ maxS hs0.ne'
    constructor
    · show minS ≤ vecNorm (a * (maxS / vecNorm a b)) (b * (maxS / vecNorm a b))
      rw [hsc, habs, hval]
      exact h1
    · show vecNorm (a * (maxS / vecNorm a b)) (b * (maxS / vecNorm a b)) ≤ maxS
      rw [hsc, habs, hval]
  · rw [if_neg hmax]
    by_cases hmin : vecNorm a b < minS ∧ 1/1000 < vecNorm a b
    · rw [if_pos hmin]
      have hsc : vecNorm (a * (minS / vecNorm a b)) (b * (minS / vecNorm a b))
          = |minS / vecNorm a b| * vecNorm a b := vecNorm_scale a b _
      have habs : |minS / vecNorm a b| = minS / vecNorm a b :=
        abs_of_nonneg (div_nonneg h0 hs0.le)
      have hval : (minS / vecNorm a b) * vecNorm a b = minS :=
        div_mul_cancel₀ minS hs0.ne'
      constructor
      · show minS ≤ vecNorm (a * (minS / vecNorm a b)) (b * (minS / vecNorm a b))
        rw [hsc, habs, hval]
      · show vecNorm (a * (minS / vecNorm a b)) (b * (minS / vecNorm a b)) ≤ maxS
        rw [hsc, habs, hval]
        exact h1
    · rw [if_neg hmin]
      have hge : minS ≤ vecNorm a b := by
        by_contra hlt
        exact hmin ⟨not_le.mp hlt, hdead⟩
      exact ⟨hge, not_lt.mp hmax⟩

/-- C2, witness: `momentum_speed_envelope` at momentum `(1,0)`, zero
impulse, `minSpeed = 1/2`, `maxSpeed = 1`. -/
theorem momentum_speed_envelope_witness :
    (0 : ℝ) ≤ 1/2 ∧ (1/2 : ℝ) ≤ 1 ∧
    (1/1000 : ℝ) < vecNorm (1 + 0 * 1) (0 + 0 * 1) ∧
    ((1/2 : ℝ) ≤ vecNorm (physicsStepGC 1 (1/2) 1 (1, 0) (0, 0) (0, 0)).1.1
        (physicsStepGC 1 (1/2) 1 (1, 0) (0, 0) (0, 0)).1.2 ∧
      vecNorm (physicsStepGC 1 (1/2) 1 (1, 0) (0, 0) (0, 0)).1.1
        (physicsStepGC 1 (1/2) 1 (1, 0) (0, 0) (0, 0)).1.2 ≤ 1) := by
  have hv : vecNorm ((1 : ℝ) + 0 * 1) (0 + 0 * 1) = 1 := by
    unfold vecNorm
    rw [show ((1 : ℝ) + 0 * 1) * (1 + 0 * 1) + (0 + 0 * 1) * (0 + 0 * 1) = 1 by ring]
    exact Real.sqrt_one
  have hd : (1/1000 : ℝ) < vecNorm (1 + 0 * 1) (0 + 0 * 1) := by
    rw [hv]
    norm_num
  exact ⟨by norm_num, by norm_num, hd,
    momentum_speed_envelope 1 (1/2) 1 (1, 0) (0, 0) (0, 0) (by norm_num) (by norm_num) hd⟩

/-! ## Impact animation scales (render step 4b)

`const t = impact.frame / impact.totalFrames;`
`const bounce = 1.0 + 0.15 * Math.cos(t * Math.PI * 2.5) * (1 - t);`
`const squash = 1.0 - 0.12 * Math.cos(t * Math.PI * 3) * (1 - t);`
applied as a transform centered on the impact point. -/

/-- The uniform bounce scale at normalized impact time `t`. -/
noncomputable def bounceScale (t : ℝ) : ℝ :=
  1 + (15/100) * Real.cos (t * Real.pi * (5/2)) * (1 - t)

/-- The Y-axis squash scale at normalized impact time `t`. -/
noncomputable def squashScale (t : ℝ) : ℝ :=
  1 - (12/100) * Real.cos (t * Real.pi * 3) * (1 - t)

/-- C9, counterexample: at frame 3 of 12 (`t = 1/4`) the bounce scale is
below 1 (its cosine sits at `5π/8`, in the negative half-wave) and the
squash scale is above 1 (its cosine sits at `3π/4`): the damped cosines
cross 1 rather than staying on one side of it. -/
theorem impact_overshoot_cex :
    bounceScale ((3 : ℝ) / 12) < 1 ∧ 1 < squashScale ((3 : ℝ) / 12) := by
  have hpi := Real.pi_pos
  have hc1 : Real.cos ((5/8) * Real.pi) < 0 := by
    apply Real.cos_neg_of_pi_div_two_lt_of_lt
    · nlinarith
    · nlinarith
  have hc2 : Real.cos ((3/4) * Real.pi) < 0 := by
    apply Real.cos_neg_of_pi_div_two_lt_of_lt
    · nlinarith
    · nlinarith
  constructor
  · unfold bounceScale
    rw [show ((3 : ℝ) / 12) * Real.pi * (5/2) = (5/8) * Real.pi by ring]
    nlinarith
  · unfold squashScale
    rw [show ((3 : ℝ) / 12) * Real.pi * 3 = (3/4) * Real.pi by ring]
    nlinarith

/-- C9, amended: the impact animation is created with exactly 12 frames;
at every frame `1 <= f <= 12` the two scales are damped cosines staying
within `0.15 * (1 - f/12)` resp. `0.12 * (1 - f/12)` of 1 (so both settle
to exactly 1 at the final frame); the animation starts as claimed — bounce
above 1 and squash below 1 on the first frame — but the damped cosines
oscillate across 1 on the way rather than staying strictly on one side. -/
theorem impact_anim_curves (f : ℕ) (hf1 : 1 ≤ f) (hf2 : f ≤ 12) :
    impactTotalFrames = 12 ∧
    bounceScale ((12 : ℝ) / 12) = 1 ∧
    squashScale ((12 : ℝ) / 12) = 1 ∧
    |bounceScale ((f : ℝ) / 12) - 1| ≤ (15/100) * (1 - (f : ℝ) / 12) ∧
    |squashScale ((f : ℝ) / 12) - 1| ≤ (12/100) * (1 - (f : ℝ) / 12) ∧
    1 < bounceScale ((1 : ℝ) / 12) ∧
    squashScale ((1 : ℝ) / 12) < 1 := by
  have hpi := Real.pi_pos
  have ht1 : (f : ℝ) / 12 ≤ 1 := by
    rw [div_le_one (by norm_num)]
    exact_mod_cast hf2
  have htn : (0 : ℝ) ≤ 1 - (f : ℝ) / 12 := by linarith
  refine ⟨rfl, ?_, ?_, ?_, ?_, ?_, ?_⟩
  · unfold bounceScale
    norm_num
  · unfold squashScale
    norm_num
  · rw [show bounceScale ((f : ℝ) / 12) - 1
        = (15/100) * Real.cos (((f : ℝ) / 12) * Real.pi * (5/2)) * (1 - (f : ℝ) / 12) by
      unfold bounceScale; ring]
    rw [abs_mul, abs_mul, abs_of_nonneg (by norm_num : (0:ℝ) ≤ 15/100), abs_of_nonneg htn]
    have hcb := Real.abs_cos_le_one (((f : ℝ) / 12) * Real.pi * (5/2))
    have hc0 := abs_nonneg (Real.cos (((f : ℝ) / 12) * Real.pi * (5/2)))
    nlinarith
  · rw [show squashScale ((f : ℝ) / 12) - 1
        = -((12/100) * Real.cos (((f : ℝ) / 12) * Real.pi * 3) * (1 - (f : ℝ) / 12)) by
      unfold squashScale; ring]
    rw [abs_neg, abs_mul, abs_mul, abs_of_nonneg (by norm_num : (0:ℝ) ≤ 12/100),
      abs_of_nonneg htn]
    have hcb := Real.abs_cos_le_one (((f : ℝ) / 12) * Real.pi * 3)
    have hc0 := abs_nonneg (Real.cos (((f : ℝ) / 12) * Real.pi * 3))
    nlinarith
  · have hc : 0 < Real.cos ((5/24) * Real.pi) := by
      apply Real.cos_pos_of_mem_Ioo
      constructor
      · nlinarith
      · nlinarith
    unfold bounceScale
    rw [show ((1 : ℝ) / 12) * Real.pi * (5/2) = (5/24) * Real.pi by ring]
    nlinarith
  · have hc : 0 < Real.cos ((1/4) * Real.pi) := by
      apply Real.cos_pos_of_mem_Ioo
      constructor
      · nlinarith
      · nlinarith
    unfold squashScale
    rw [show ((1 : ℝ) / 12) * Real.pi * 3 = (1/4) * Real.pi by ring]
    nlinarith

/-- C9, witness: `impact_anim_curves` at frame 6. -/
theorem impact_anim_curves_witness :
    1 ≤ 6 ∧ 6 ≤ 12 ∧
    (impactTotalFrames = 12 ∧
     bounceScale ((12 : ℝ) / 12) = 1 ∧
     squashScale ((12 : ℝ) / 12) = 1 ∧
     |bounceScale (((6 : ℕ) : ℝ) / 12) - 1| ≤ (15/100) * (1 - ((6 : ℕ) : ℝ) / 12) ∧
     |squashScale (((6 : ℕ) : ℝ) / 12) - 1| ≤ (12/100) * (1 - ((6 : ℕ) : ℝ) / 12) ∧
     1 < bounceScale ((1 : ℝ) / 12) ∧
     squashScale ((1 : ℝ) / 12) < 1) :=
  ⟨by norm_num, by norm_num, impact_anim_curves 6 (by norm_num) (by norm_num)⟩

end Archr
